import Mathlib

/-!
Verification of the CityZenGuard retrieval engine against its specification.

The Python sources embedded here:
  * `scripts/rag/build_embeddings_hf.py` — chunker, HF embedding client, builder main
  * `rag_service/query_api.py`           — tiered query resolution endpoint
  * `scripts/rag/query.py`               — basic (Jaccard) index search

Strings are modelled as `List Char` (Python `str` is a character sequence);
floating-point scores and sampling temperatures are modelled as `ℚ`, which
preserves every order comparison the code performs; fallible code returns
`Option`/`Except`; the one unbounded `while` loop (the chunker) is modelled
with explicit fuel so that its non-termination is itself a provable fact.
-/

namespace CityZenGuard

/-! ## Python string primitives -/

/-- Python `\w` word character: `[A-Za-z0-9_]` (ASCII fragment of the class). -/
def isWordChar (c : Char) : Bool := c.isAlphanum || c == '_'

/-- Python `str.lower` (ASCII fragment). -/
def lowerL (s : List Char) : List Char := s.map Char.toLower

/-- Python `text.replace("\r", "")` — removes every carriage return. -/
def crStrip (s : List Char) : List Char := s.filter (fun c => !(c == '\r'))

/-- Python `str.strip()`: drop whitespace from both ends. -/
def pyStripL (s : List Char) : List Char :=
  ((s.dropWhile Char.isWhitespace).reverse.dropWhile Char.isWhitespace).reverse

/-- `str.strip()` on packed strings. -/
def pyStrip (s : String) : String := ⟨pyStripL s.data⟩

/-- Python `s.startswith(pat)` on character lists. -/
def startsW : List Char → List Char → Bool
  | _, [] => true
  | [], _ :: _ => false
  | a :: as, b :: bs => a == b && startsW as bs

/-- Python `pat in s` (contiguous substring test) on character lists. -/
def hasSeg : List Char → List Char → Bool
  | [], pat => startsW [] pat
  | s@(_ :: rest), pat => startsW s pat || hasSeg rest pat

/-- `pat in s` on packed strings. -/
def hasSegS (s pat : String) : Bool := hasSeg s.data pat.data

/-- Helper for `len(s.split())`: scans characters tracking whether the scan
is currently inside a word, counting word starts. -/
def wordCountGo : Bool → List Char → Nat
  | _, [] => 0
  | inW, c :: rest =>
    if c.isWhitespace then wordCountGo false rest
    else (if inW then 0 else 1) + wordCountGo true rest

/-- Python `len(s.split())`: the number of maximal non-whitespace runs. -/
def wordCount (s : List Char) : Nat := wordCountGo false s

/-- Python `sep.join(xs)`. -/
def joinSep (sep : String) : List String → String
  | [] => ""
  | [x] => x
  | x :: y :: rest => x ++ sep ++ joinSep sep (y :: rest)

/-- Clamp one Python slice endpoint: negative indices count from the end,
out-of-range indices are clamped (CPython slice semantics). -/
def pyIdx (len : Nat) (a : Int) : Nat :=
  if a < 0 then ((len : Int) + a).toNat else min a.toNat len

/-- Python `s[a:b]` with arbitrary integer endpoints. -/
def pySlice (s : List Char) (a b : Int) : List Char :=
  (s.take (pyIdx s.length b)).drop (pyIdx s.length a)

/-! ## Chunker — `build_embeddings_hf.py`, `chunk_text`

```python
def chunk_text(text, max_chars=1000, overlap=200):
    text = text.replace("\r", "")
    parts = []
    i = 0
    while i < len(text):
        part = text[i:i+max_chars]
        parts.append(part)
        i += max_chars - overlap
    return parts
```

The `while` loop carries no termination guarantee in the source (the step
`max_chars - overlap` may be ≤ 0), so it is modelled with fuel: `none`
means the fuel ran out with the loop still running. -/

/-- One fuel-indexed unfolding of the chunker's `while` loop. `i` is an
`Int` because Python's `i += max_chars - overlap` can drive it negative. -/
def chunkLoop (text : List Char) (maxChars : Nat) (step : Int) :
    Nat → Int → Option (List (List Char))
  | fuel, i =>
    if i < (text.length : Int) then
      match fuel with
      | 0 => none
      | fuel + 1 =>
        (chunkLoop text maxChars step fuel (i + step)).map
          (fun rest => pySlice text i (i + maxChars) :: rest)
    else
      some []

/-- `chunk_text(text, max_chars, overlap)` run with the given fuel. -/
def chunk_text (text : List Char) (maxChars overlap : Nat) (fuel : Nat) :
    Option (List (List Char)) :=
  chunkLoop (crStrip text) maxChars ((maxChars : Int) - (overlap : Int)) fuel 0

/-! ## Query service — `rag_service/query_api.py`

The knowledge base rows (`df`) carry a `title` and a `content` column; the
embedding search and the Gemini generation call are external collaborators,
modelled as fields of an explicit environment. -/

/-- One row of the loaded dataframe `df`. -/
structure Frag where
  title : String
  content : String
deriving DecidableEq

/-- Outcome of one `client.models.generate_content` call: the generated text,
or the exception message the `except` block catches. -/
inductive GenResult where
  | success (text : String)
  | failure (msg : String)
deriving DecidableEq

/-- The process environment of `query_api.py`: the dataframe, the embedding
search (`search_embeddings`, returning `(title, content, score)` triples) and
the generation provider keyed by prompt and temperature. -/
structure Env where
  df : List Frag
  search : String → Nat → List (String × String × ℚ)
  gen : String → ℚ → GenResult

/--
```python
def safe_generate(prompt, temperature=0.2):
    try:
        resp = client.models.generate_content(...)
        return resp.text.strip()
    except Exception as e:
        text = str(e)
        if "RESOURCE_EXHAUSTED" in text or "quota" in text.lower():
            return "ERROR: Gemini quota exceeded"
        return f"ERROR: {text}"
```
-/
def safe_generate (r : GenResult) : String :=
  match r with
  | .success t => pyStrip t
  | .failure e =>
    if hasSeg e.data "RESOURCE_EXHAUSTED".data || hasSeg (lowerL e.data) "quota".data then
      "ERROR: Gemini quota exceeded"
    else
      "ERROR: " ++ e

/-- `ans.startswith("ERROR:")` — the endpoint's in-band error marker test. -/
def ansIsError (ans : String) : Bool := startsW ans.data "ERROR:".data

/-! ### The structural-lookup regexes

`re.search(r"(?:ipc|section)\s*(\d+)", query.lower())` and
`title.str.contains(rf"(?:^|\b)(?:Section|IPC)\s*{sec}(?:\b|$)", case=False)`.
Both regexes are backtracking-free on their character classes (whitespace,
digits and the two keyword literals are pairwise disjoint), so they are
modelled by direct left-to-right scans. -/

/-- Try `key` (already lowercase) at the head of lowercase `s`, then `\s*`
greedily, then `\d+`; return the digit group on success. -/
def tryKeyNum (s key : List Char) : Option (List Char) :=
  if startsW s key then
    let digits := ((s.drop key.length).dropWhile Char.isWhitespace).takeWhile Char.isDigit
    if digits = [] then none else some digits
  else none

/-- `re.search(r"(?:ipc|section)\s*(\d+)", s)` on a lowercase `s`: scan every
start position, trying the alternatives in the pattern's order. -/
def matchKeyNum : List Char → Option (List Char)
  | [] => none
  | s@(_ :: rest) =>
    match tryKeyNum s "ipc".data with
    | some d => some d
    | none =>
      match tryKeyNum s "section".data with
      | some d => some d
      | none => matchKeyNum rest

/-- Case-insensitive literal match at the head of `s` (`key` lowercase). -/
def startsWIns (s key : List Char) : Bool := startsW (lowerL s) key

/-- `(?:Section|IPC)\s*{sec}(?:\b|$)` tried at the head of `s` for one
keyword alternative: the keyword (case-insensitive), greedy whitespace, the
digit literal `sec`, then a word boundary or end of string. -/
def tryTitleKey (s key sec : List Char) : Bool :=
  startsWIns s key &&
    (let afterWs := (s.drop key.length).dropWhile Char.isWhitespace
     startsW afterWs sec &&
       match afterWs.drop sec.length with
       | [] => true
       | c :: _ => !isWordChar c)

/-- The whole title pattern tried at the head of `s`. -/
def titleMatchAt (s sec : List Char) : Bool :=
  tryTitleKey s "section".data sec || tryTitleKey s "ipc".data sec

/-- Scan of `(?:^|\b)(?:Section|IPC)\s*{sec}(?:\b|$)` over a title: a start
position qualifies when it is position 0 or preceded by a non-word character
(`\b` before a word character). `prev` is the preceding character. -/
def titleScan (sec : List Char) (prev : Option Char) : List Char → Bool
  | [] => false
  | s@(c :: rest) =>
    ((match prev with
      | none => true
      | some p => !isWordChar p) && titleMatchAt s sec)
    || titleScan sec (some c) rest

/-- `re.search` of the title pattern over the whole title. -/
def titleHasSec (sec : List Char) (title : List Char) : Bool :=
  titleScan sec none title

/--
```python
def direct_section_lookup(query):
    m = re.search(r"(?:ipc|section)\s*(\d+)", query.lower())
    if m:
        sec = m.group(1)
        hits = df[df["title"].str.contains(
            rf"(?:^|\b)(?:Section|IPC)\s*{sec}(?:\b|$)", case=False, na=False, regex=True)]
        if not hits.empty:
            return "\n\n".join(hits["title"] + " - " + hits["content"])
    return None
```
-/
def direct_section_lookup (df : List Frag) (query : String) : Option String :=
  match matchKeyNum (lowerL query.data) with
  | none => none
  | some sec =>
    let hits := df.filter (fun fr => titleHasSec sec fr.title.data)
    if hits.isEmpty then none
    else some (joinSep "\n\n" (hits.map (fun fr => fr.title ++ " - " ++ fr.content)))

/-- `build_kb_prompt(context, query)` — the f-string verbatim (the source
file's literal contains mojibake bytes, reproduced as written). -/
def build_kb_prompt (context query : String) : String :=
  "\nYou are a legal assistant. Use the knowledge base context provided below.\n\nRules:\n- If the context contains a legal answer, explain it clearly in simple language.\n- If context is EMPTY/irrelevant, do NOT say 'I will search' â€” only reply 'Not found in knowledge base.'\n- If context is insufficient, you may expand using general legal knowledge but prioritize the KB.\n\nContext:\n"
    ++ context ++ "\n\nQuery:\n" ++ query ++ "\n"

/-- `build_web_prompt(query)` — the f-string verbatim. -/
def build_web_prompt (query : String) : String :=
  "\nYou are a legal assistant.\n\nRules:\n1. If the query is NOT legal, reply exactly: \"Not a legal question.\"\n2. If the query IS legal, provide a clear, accurate legal explanation in simple language. Use external knowledge if needed.\n\nQuery:\n"
    ++ query ++ "\n"

/-- What `/api/query` hands back: a `QueryOut{answer, source}` body, or an
`HTTPException(status, detail)`. -/
inductive ApiResult where
  | ok (answer : String) (source : String)
  | httpError (status : Nat) (detail : String)
deriving DecidableEq

/-- `ApiResult.ok` recognizer. -/
def ApiResult.isOk : ApiResult → Bool
  | .ok _ _ => true
  | _ => false

/-- Recognizer for the 503 typed error. -/
def ApiResult.is503 : ApiResult → Bool
  | .httpError s _ => s == 503
  | _ => false

/-- Lines 128-132: the no-context web generation (`build_web_prompt`,
temperature 0.3) with its `ERROR:` check. -/
def webFallback (env : Env) (q : String) : ApiResult :=
  let ans := safe_generate (env.gen (build_web_prompt q) (mkRat 3 10))
  if ansIsError ans then .httpError 503 ans else .ok ans "web"

/-- Lines 116-121: generation from the structural-lookup context
(temperature 0.1) with its `ERROR:` check. -/
def kbDirect (env : Env) (q ctx : String) : ApiResult :=
  let ans := safe_generate (env.gen (build_kb_prompt ctx q) (mkRat 1 10))
  if ansIsError ans then .httpError 503 ans else .ok ans "kb"

/-- Line 142's condition: the generated answer contains the fixed sentinel,
or its word count is below 5. -/
def postCheckTrips (ans : String) : Bool :=
  hasSegS ans "Not found in knowledge base" || wordCount ans.data < 5

/-- Lines 134-149: KB-mode generation grounded in the joined top-k context
(temperature 0.15), the `ERROR:` check, and the post-generation check that
re-routes to the web fallback on the sentinel or a word count below 5. -/
def kbContextStep (env : Env) (q : String) (results : List (String × String × ℚ)) :
    ApiResult :=
  let context := joinSep "\n\n" (results.map (fun r => r.1 ++ " - " ++ r.2.1))
  let ans := safe_generate (env.gen (build_kb_prompt context q) (mkRat 3 20))
  if ansIsError ans then .httpError 503 ans
  else if postCheckTrips ans then webFallback env q
  else .ok ans "kb"

/-- Lines 123-149: the vector-search tier. `results[0]` on an empty result
list raises `IndexError`, caught by the catch-all `except` as a 500. -/
def searchPath (env : Env) (q : String) : ApiResult :=
  match env.search q 5 with
  | [] => .httpError 500 "Internal server error"
  | best :: rest =>
    if best.2.2 < mkRat 2 5 then webFallback env q
    else kbContextStep env q (best :: rest)

/-- `query_endpoint(payload, x_internal_key)`: the auth check, then the
tiered resolution. `if direct_ctx:` is Python truthiness — `None` and the
empty string both fall through to the vector search. -/
def query_endpoint (env : Env) (apiSecret : String) (headerKey : Option String)
    (question : String) : ApiResult :=
  if apiSecret ≠ "" ∧ headerKey ≠ some apiSecret then .httpError 401 "Unauthorized"
  else
    let q := pyStrip question
    match direct_section_lookup env.df q with
    | some ctx => if ctx = "" then searchPath env q else kbDirect env q ctx
    | none => searchPath env q

/-! ## Index builder — `build_embeddings_hf.py` -/

/-- One embedding vector as parsed from the HF JSON response. -/
abbrev Vec := List ℚ

/-- The HF inference endpoint as an oracle: `(model, batchStart, attempt) ↦`
the embeddings parsed from a 200 response, or `none` when that attempt fails
(non-200 status, timeout, or any other exception — all three `except`/status
arms of the source count the attempt and retry). -/
abbrev HfOracle := String → Nat → Nat → Option (List Vec)

/-- The `while attempt < retries` loop of `batch_embed` for one batch:
`f a` is attempt number `a`; the second argument is the remaining attempt
budget. `none` models the `while`-`else` `raise RuntimeError`. -/
def runAttempts (f : Nat → Option (List Vec)) : Nat → Nat → Option (List Vec)
  | _, 0 => none
  | a, r + 1 =>
    match f a with
    | some e => some e
    | none => runAttempts f (a + 1) r

/-- `range(0, n, bs)` — the batch start offsets. -/
def batchStarts (n bs : Nat) : List Nat :=
  (List.range ((n + bs - 1) / bs)).map (fun k => k * bs)

/-- The batch loop of `batch_embed`: embeddings accumulate in order; the
first batch that exhausts its retries raises, abandoning the rest. (The
Python error message also cites the batch's end offset; only the start
offset and retry count are reproduced here.) -/
def batchEmbedGo (resp : HfOracle) (model : String) (retries : Nat) :
    List Nat → Except String (List Vec)
  | [] => .ok []
  | i :: rest =>
    match runAttempts (fun a => resp model i a) 0 retries with
    | none =>
      .error ("Embedding batch " ++ toString i ++ " failed after "
        ++ toString retries ++ " retries")
    | some e =>
      match batchEmbedGo resp model retries rest with
      | .error msg => .error msg
      | .ok es => .ok (e ++ es)

/-- `batch_embed(texts, model, batch_size=8, ..., retries=4, ...)`. -/
def batch_embed (resp : HfOracle) (texts : List (List Char)) (model : String)
    (batchSize retries : Nat) : Except String (List Vec) :=
  batchEmbedGo resp model retries (batchStarts texts.length batchSize)

/-- `USER_MODEL` (the `HUGGINGFACE_EMBEDDING_MODEL` default). -/
def USER_MODEL : String := "sentence-transformers/paraphrase-MiniLM-L3-v2"

/-- `FALLBACK_MODEL`. -/
def FALLBACK_MODEL : String := "sentence-transformers/paraphrase-mpnet-base-v2"

/-- One docstore record: `{"id": doc_id, "title": fname, "text": chunk,
"source": fname}`. -/
structure DocRec where
  id : Nat
  title : String
  text : List Char
  source : String
deriving DecidableEq

/-- `chunk_text(content, max_chars=1000, overlap=200)` as called by `main`;
fuel `len(content)+1` exceeds the loop's iteration count (the step is 800),
see `chunk_text_isSome`. -/
def chunksOf (content : String) : List (List Char) :=
  (chunk_text content.data 1000 200 (content.data.length + 1)).getD []

/-- The docstore-building loop of `main`: blank documents
(`if not content.strip(): continue`) are skipped; `doc_id` counts every
stored chunk across documents. -/
def collectGo (docId : Nat) : List (String × String) → List DocRec
  | [] => []
  | (fname, content) :: rest =>
    if pyStrip content = "" then collectGo docId rest
    else
      let cs := chunksOf content
      (cs.enum.map (fun p => DocRec.mk (docId + p.1) fname p.2 fname))
        ++ collectGo (docId + cs.length) rest

/-- The `texts` list of `main` — one entry per docstore record, in order. -/
def collectTexts (documents : List (String × String)) : List (List Char) :=
  (collectGo 0 documents).map (fun r => r.text)

/-- The two artifacts `main` writes on success: `docstore.json` and
`embeddings.json`. -/
structure BuildOut where
  docstore : List DocRec
  embeddings : List Vec
deriving DecidableEq

/-- `main()` of `build_embeddings_hf.py`: `.ok none` is the early normal
return on zero texts (nothing written); `.ok (some _)` means both artifacts
were written; `.error` is an uncaught exception terminating the build before
any write. The `len(embeddings) != len(texts)` case only prints a warning
and still writes. -/
def mainHF (resp : HfOracle) (documents : List (String × String)) :
    Except String (Option BuildOut) :=
  let docstore := collectGo 0 documents
  let texts := docstore.map (fun r => r.text)
  if texts.length = 0 then .ok none
  else
    match batch_embed resp texts USER_MODEL 8 4 with
    | .ok embs => .ok (some ⟨docstore, embs⟩)
    | .error _ =>
      match batch_embed resp texts FALLBACK_MODEL 8 4 with
      | .ok embs => .ok (some ⟨docstore, embs⟩)
      | .error e2 => .error e2

/-! ## Basic search — `scripts/rag/query.py`, `search_basic_index` -/

/-- One docstore entry as read by `query.py` (the fields it uses). -/
structure Doc where
  title : String
  text : String
  source : String
deriving DecidableEq

/-- `re.findall(r"\w+", s)` — maximal runs of word characters; `cur` holds
the current run reversed. -/
def tokensGo (cur : List Char) : List Char → List (List Char)
  | [] => if cur.isEmpty then [] else [cur.reverse]
  | c :: rest =>
    if isWordChar c then tokensGo (c :: cur) rest
    else if cur.isEmpty then tokensGo [] rest
    else cur.reverse :: tokensGo [] rest

/-- `set(re.findall(r"\w+", s.lower()))`. -/
def wordSet (s : String) : Finset (List Char) :=
  (tokensGo [] (lowerL s.data)).toFinset

/-- The Jaccard score: `intersection / union`, `0.0` on an empty union.
The exact ratio is written `mkRat` (the rational `|a ∩ b| / |a ∪ b|`). -/
def jaccard (a b : Finset (List Char)) : ℚ :=
  if 0 < (a ∪ b).card then mkRat ((a ∩ b).card : Int) ((a ∪ b).card) else 0

/-- `scores.sort(reverse=True)` compares `(score, doc_id)` tuples; `a`
precedes `b` exactly when `a` is lexicographically greater. The ids are
pairwise distinct, so this order is total and strict and sort stability is
irrelevant. -/
def tupBefore (a b : ℚ × Nat) : Bool :=
  decide (b.1 < a.1 ∨ (a.1 = b.1 ∧ b.2 < a.2))

/-- Insertion into a descending-sorted list. -/
def insertDesc (x : ℚ × Nat) : List (ℚ × Nat) → List (ℚ × Nat)
  | [] => [x]
  | y :: ys => if tupBefore x y then x :: y :: ys else y :: insertDesc x ys

/-- `scores.sort(reverse=True)` — descending lexicographic sort. -/
def pySortDesc : List (ℚ × Nat) → List (ℚ × Nat)
  | [] => []
  | x :: xs => insertDesc x (pySortDesc xs)

/-- One result record of `search_basic_index`. -/
structure SearchRes where
  id : Nat
  score : ℚ
  title : String
  text : String
  source : String
deriving DecidableEq

/-- `search_basic_index(query_text, embeddings, docstore, top_k)`: Jaccard
scores against every doc (`int(doc_id)` is the enumeration position, since
the docstore was written with keys `str(0), str(1), …` in order), tuple sort
descending, take `top_k`, then look each id back up (the text truncated to
500 characters plus an ellipsis). -/
def search_basic_index (query : String) (docstore : List Doc) (topk : Nat) :
    List SearchRes :=
  let qw := wordSet query
  let scores := docstore.enum.map (fun p => (jaccard qw (wordSet p.2.text), p.1))
  let sorted := pySortDesc scores
  (sorted.take topk).map (fun si =>
    let doc := docstore.getD si.2 ⟨"", "", ""⟩
    { id := si.2, score := si.1, title := doc.title,
      text := if 500 < doc.text.data.length
        then String.mk (doc.text.data.take 500) ++ "..." else doc.text,
      source := doc.source })

/-! ## Lemmas about the chunker -/

/-- Taking up to the length clamp is the same as taking the raw bound. -/
lemma take_min_length (l : List Char) (n : Nat) : l.take (min n l.length) = l.take n := by
  rcases le_total n l.length with h | h
  · rw [min_eq_left h]
  · rw [min_eq_right h, List.take_length, List.take_of_length_le h]

/-- The chunker's slice `text[i:i+max_chars]` for a non-negative start is a
plain drop/take. -/
lemma pySlice_natCast (s : List Char) (i m : Nat) :
    pySlice s (i : Int) ((i : Int) + (m : Int)) = (s.drop i).take m := by
  unfold pySlice pyIdx
  have hi : ¬ ((i : Int) < 0) := not_lt.mpr (by positivity)
  have him : ¬ ((i : Int) + (m : Int) < 0) := not_lt.mpr (by positivity)
  simp only [if_neg hi, if_neg him]
  have h1 : ((i : Int) + (m : Int)).toNat = i + m := by omega
  have h2 : (i : Int).toNat = i := by omega
  rw [h1, h2, take_min_length]
  rcases le_total i s.length with hle | hle
  · rw [min_eq_left hle, List.drop_take]
    congr 1
    omega
  · rw [min_eq_right hle]
    have l1 : (s.take (i + m)).drop s.length = [] :=
      List.drop_eq_nil_of_le (by rw [List.length_take]; omega)
    have l2 : s.drop i = [] := List.drop_eq_nil_of_le hle
    rw [l1, l2]
    simp

/-- Master invariant of the chunk loop with a positive step, started at a
non-negative index: fragment `k` is the slice at offset `i + k·step`, every
produced fragment starts inside the text, and the loop stops only once the
window start has passed the end. -/
lemma chunkLoop_spec {T : List Char} {m s : Nat} :
    ∀ (fuel : Nat) (i : Nat) (parts : List (List Char)),
      chunkLoop T m (s : Int) fuel (i : Int) = some parts →
      (∀ k (hk : k < parts.length),
          parts.get ⟨k, hk⟩ = (T.drop (i + k * s)).take m) ∧
      (∀ k, k < parts.length → i + k * s < T.length) ∧
      T.length ≤ i + parts.length * s := by
  intro fuel
  induction fuel with
  | zero =>
    intro i parts h
    rw [chunkLoop] at h
    by_cases hi : (i : Int) < (T.length : Int)
    · simp only [if_pos hi] at h
      exact absurd h (by simp)
    · simp only [if_neg hi, Option.some_inj] at h
      subst h
      have hge : T.length ≤ i := by exact_mod_cast not_lt.mp hi
      exact ⟨fun k hk => absurd hk (by simp), fun k hk => absurd hk (by simp),
        by simpa using hge⟩
  | succ fuel ih =>
    intro i parts h
    rw [chunkLoop] at h
    by_cases hi : (i : Int) < (T.length : Int)
    · simp only [if_pos hi] at h
      cases hrec : chunkLoop T m (s : Int) fuel ((i : Int) + (s : Int)) with
      | none => rw [hrec] at h; simp at h
      | some rest =>
        rw [hrec] at h
        simp only [Option.map_some', Option.some_inj] at h
        have hcast : ((i : Int) + (s : Int)) = (((i + s : Nat) : Int)) := by omega
        rw [hcast] at hrec
        obtain ⟨ih1, ih2, ih3⟩ := ih (i + s) rest hrec
        have hilt : i < T.length := by exact_mod_cast hi
        subst h
        refine ⟨?_, ?_, ?_⟩
        · intro k hk
          match k with
          | 0 =>
            simp only [List.get, List.length_cons] at *
            rw [pySlice_natCast]
            simp
          | k + 1 =>
            have hk' : k < rest.length := by simpa using hk
            have := ih1 k hk'
            simp only [List.get] at this ⊢
            rw [this]
            congr 2
            ring
        · intro k hk
          match k with
          | 0 => simpa using hilt
          | k + 1 =>
            have hk' : k < rest.length := by simpa using hk
            have := ih2 k hk'
            calc i + (k + 1) * s = (i + s) + k * s := by ring
              _ < T.length := this
        · simp only [List.length_cons]
          calc T.length ≤ (i + s) + rest.length * s := ih3
            _ = i + (rest.length + 1) * s := by ring
    · simp only [if_neg hi, Option.some_inj] at h
      subst h
      have hge : T.length ≤ i := by exact_mod_cast not_lt.mp hi
      exact ⟨fun k hk => absurd hk (by simp), fun k hk => absurd hk (by simp),
        by simpa using hge⟩

/-- Dropping the first `overlap` characters of every fragment and joining
yields the text from offset `i + overlap` on: the window's step `s` and the
retained prefix `overlap` tile the text exactly when `s + overlap = m`. -/
lemma chunkLoop_join {T : List Char} {m s ov : Nat} (hm : s + ov = m) (hs : 0 < s) :
    ∀ (fuel : Nat) (i : Nat) (parts : List (List Char)),
      chunkLoop T m (s : Int) fuel (i : Int) = some parts →
      (parts.map (fun q => q.drop ov)).join = T.drop (i + ov) := by
  intro fuel
  induction fuel with
  | zero =>
    intro i parts h
    rw [chunkLoop] at h
    by_cases hi : (i : Int) < (T.length : Int)
    · simp only [if_pos hi] at h
      exact absurd h (by simp)
    · simp only [if_neg hi, Option.some_inj] at h
      subst h
      have hge : T.length ≤ i := by exact_mod_cast not_lt.mp hi
      simp [List.drop_eq_nil_of_le (by omega : T.length ≤ i + ov)]
  | succ fuel ih =>
    intro i parts h
    rw [chunkLoop] at h
    by_cases hi : (i : Int) < (T.length : Int)
    · simp only [if_pos hi] at h
      cases hrec : chunkLoop T m (s : Int) fuel ((i : Int) + (s : Int)) with
      | none => rw [hrec] at h; simp at h
      | some rest =>
        rw [hrec] at h
        simp only [Option.map_some', Option.some_inj] at h
        have hcast : ((i : Int) + (s : Int)) = (((i + s : Nat) : Int)) := by omega
        rw [hcast] at hrec
        have ihrest := ih (i + s) rest hrec
        subst h
        simp only [List.map_cons, List.join_cons, ihrest, pySlice_natCast]
        have e1 : ((T.drop i).take m).drop ov = ((T.drop i).drop ov).take (m - ov) :=
          List.drop_take ..
        have e2 : (T.drop i).drop ov = T.drop (i + ov) := List.drop_drop ..
        have e3 : m - ov = s := by omega
        have e4 : T.drop (i + s + ov) = (T.drop (i + ov)).drop s := by
          rw [List.drop_drop]
          congr 1
          ring
        rw [e1, e2, e3, e4]
        exact List.take_append_drop ..
    · simp only [if_neg hi, Option.some_inj] at h
      subst h
      have hge : T.length ≤ i := by exact_mod_cast not_lt.mp hi
      simp [List.drop_eq_nil_of_le (by omega : T.length ≤ i + ov)]

/-- With a positive step the loop terminates: fuel `len − i` suffices, since
the window start gains at least one position per iteration. -/
lemma chunkLoop_isSome {T : List Char} {m : Nat} {s : Int} (hs : 1 ≤ s) :
    ∀ (fuel : Nat) (i : Int), (T.length : Int) ≤ i + fuel →
      (chunkLoop T m s fuel i).isSome := by
  intro fuel
  induction fuel with
  | zero =>
    intro i hfe
    rw [chunkLoop]
    have : ¬ (i < (T.length : Int)) := by omega
    simp [this]
  | succ fuel ih =>
    intro i hfe
    rw [chunkLoop]
    by_cases hi : i < (T.length : Int)
    · simp only [if_pos hi]
      have := ih (i + s) (by omega)
      cases hrec : chunkLoop T m s fuel (i + s) with
      | none => rw [hrec] at this; simp at this
      | some rest => simp
    · simp [if_neg hi]

/-- `chunk_text` with `overlap < maxChars` terminates within fuel
`len(text)`: the fuelled model returns `some`. -/
lemma chunk_text_isSome {text : List Char} {maxChars overlap fuel : Nat}
    (hov : overlap < maxChars) (hfe : (crStrip text).length ≤ fuel) :
    (chunk_text text maxChars overlap fuel).isSome := by
  unfold chunk_text
  exact chunkLoop_isSome (by omega) fuel 0 (by omega)

/-- With a non-positive step and non-empty text the loop never exits: the
window start stays at or below zero, so the guard `i < len(text)` holds at
every iteration and every fuel budget runs out. -/
lemma chunkLoop_none_of_nonpos {T : List Char} {m : Nat} {s : Int}
    (hs : s ≤ 0) (hT : 0 < T.length) :
    ∀ (fuel : Nat) (i : Int), i ≤ 0 → chunkLoop T m s fuel i = none := by
  intro fuel
  induction fuel with
  | zero =>
    intro i hi
    rw [chunkLoop]
    have : i < (T.length : Int) := by
      have : (0 : Int) < (T.length : Int) := by exact_mod_cast hT
      omega
    simp [this]
  | succ fuel ih =>
    intro i hi
    rw [chunkLoop]
    have hlt : i < (T.length : Int) := by
      have : (0 : Int) < (T.length : Int) := by exact_mod_cast hT
      omega
    simp only [if_pos hlt]
    rw [ih (i + s) (by omega)]
    rfl

/-- The reconstruction of the claim: the first fragment, followed by every
subsequent fragment minus its first `overlap` characters. -/
def rebuild (ov : Nat) : List (List Char) → List Char
  | [] => []
  | p :: ps => p ++ (ps.map (fun q => q.drop ov)).join

/-- The whole-list form of `chunkLoop_join`: the claim's reconstruction of
the fragment list produced from offset `i` gives back the text from `i` on. -/
lemma chunkLoop_rebuild {T : List Char} {m s ov : Nat} (hm : s + ov = m) (hs : 0 < s) :
    ∀ (fuel : Nat) (i : Nat) (parts : List (List Char)),
      chunkLoop T m (s : Int) fuel (i : Int) = some parts →
      rebuild ov parts = T.drop i := by
  intro fuel
  induction fuel with
  | zero =>
    intro i parts h
    rw [chunkLoop] at h
    by_cases hi : (i : Int) < (T.length : Int)
    · simp only [if_pos hi] at h
      exact absurd h (by simp)
    · simp only [if_neg hi, Option.some_inj] at h
      subst h
      have hge : T.length ≤ i := by exact_mod_cast not_lt.mp hi
      simp [rebuild, List.drop_eq_nil_of_le hge]
  | succ fuel ih =>
    intro i parts h
    rw [chunkLoop] at h
    by_cases hi : (i : Int) < (T.length : Int)
    · simp only [if_pos hi] at h
      cases hrec : chunkLoop T m (s : Int) fuel ((i : Int) + (s : Int)) with
      | none => rw [hrec] at h; simp at h
      | some rest =>
        rw [hrec] at h
        simp only [Option.map_some', Option.some_inj] at h
        have hcast : ((i : Int) + (s : Int)) = (((i + s : Nat) : Int)) := by omega
        rw [hcast] at hrec
        have hjoin := chunkLoop_join hm hs fuel (i + s) rest hrec
        subst h
        show pySlice T (i : Int) ((i : Int) + (m : Int)) ++
            (rest.map (fun q => q.drop ov)).join = T.drop i
        rw [hjoin, pySlice_natCast]
        have e4 : T.drop (i + s + ov) = (T.drop i).drop m := by
          rw [List.drop_drop]
          congr 1
          omega
        rw [e4]
        exact List.take_append_drop ..
    · simp only [if_neg hi, Option.some_inj] at h
      subst h
      have hge : T.length ≤ i := by exact_mod_cast not_lt.mp hi
      simp [rebuild, List.drop_eq_nil_of_le hge]

/-- C10: for `overlap < maxChars` the fragments tile the carriage-return-
stripped text exactly — fragment `k` starts at offset `k·(maxChars−overlap)`,
and re-concatenating (first fragment, then each later fragment minus its
first `overlap` characters) rebuilds the stripped text with nothing lost or
duplicated. -/
theorem chunk_text_tiles (text : List Char) (maxChars overlap fuel : Nat)
    (parts : List (List Char)) (hov : overlap < maxChars)
    (h : chunk_text text maxChars overlap fuel = some parts) :
    (∀ k (hk : k < parts.length),
        parts.get ⟨k, hk⟩ =
          ((crStrip text).drop (k * (maxChars - overlap))).take maxChars) ∧
    rebuild overlap parts = crStrip text := by
  unfold chunk_text at h
  have hstep : ((maxChars : Int) - (overlap : Int)) = ((maxChars - overlap : Nat) : Int) := by
    omega
  rw [hstep, show (0 : Int) = ((0 : Nat) : Int) from rfl] at h
  obtain ⟨h1, _h2, _h3⟩ := chunkLoop_spec fuel 0 parts h
  constructor
  · intro k hk
    rw [h1 k hk]
    congr 2
    ring
  · have := chunkLoop_rebuild (by omega : (maxChars - overlap) + overlap = maxChars)
      (by omega : 0 < maxChars - overlap) fuel 0 parts h
    simpa using this

/-- Witness for C10 at `("abcdef", maxChars 3, overlap 1)`: the fragments
are `abc`, `cde`, `ef`, their offsets are 0, 2, 4, and the reconstruction
returns the original text. -/
theorem chunk_text_tiles_witness :
    (1 : Nat) < 3 ∧
    ((∀ k (hk : k < ([['a','b','c'], ['c','d','e'], ['e','f']] : List (List Char)).length),
        ([['a','b','c'], ['c','d','e'], ['e','f']] : List (List Char)).get ⟨k, hk⟩ =
          ((crStrip "abcdef".data).drop (k * (3 - 1))).take 3) ∧
      rebuild 1 [['a','b','c'], ['c','d','e'], ['e','f']] = crStrip "abcdef".data) :=
  ⟨by decide, chunk_text_tiles "abcdef".data 3 1 10
    [['a','b','c'], ['c','d','e'], ['e','f']] (by decide) (by decide)⟩

/-- C6 (amended): with `0 < overlap < maxChars`, every fragment has length
at most `maxChars`; fragment `k` is the window at offset
`k·(maxChars−overlap)` (the window advances by exactly that step); a
fragment of full length `maxChars` shares its last `overlap` characters
with the first `overlap` characters of the next fragment; and any fragment
shorter than `maxChars` extends to the end of the stripped text (several
trailing fragments may be short, not only the final one). -/
theorem chunk_text_window_amended (text : List Char) (maxChars overlap fuel : Nat)
    (parts : List (List Char)) (h0 : 0 < overlap) (hov : overlap < maxChars)
    (h : chunk_text text maxChars overlap fuel = some parts) :
    (∀ k (hk : k < parts.length), (parts.get ⟨k, hk⟩).length ≤ maxChars) ∧
    (∀ k (hk : k < parts.length),
        parts.get ⟨k, hk⟩ =
          ((crStrip text).drop (k * (maxChars - overlap))).take maxChars) ∧
    (∀ k (hk1 : k + 1 < parts.length),
        (parts.get ⟨k, Nat.lt_of_succ_lt hk1⟩).length = maxChars →
        (parts.get ⟨k, Nat.lt_of_succ_lt hk1⟩).drop (maxChars - overlap) =
          (parts.get ⟨k + 1, hk1⟩).take overlap) ∧
    (∀ k (hk : k < parts.length), (parts.get ⟨k, hk⟩).length < maxChars →
        k * (maxChars - overlap) + (parts.get ⟨k, hk⟩).length =
          (crStrip text).length) := by
  unfold chunk_text at h
  have hstep : ((maxChars : Int) - (overlap : Int)) = ((maxChars - overlap : Nat) : Int) := by
    omega
  rw [hstep, show (0 : Int) = ((0 : Nat) : Int) from rfl] at h
  obtain ⟨h1, h2, _h3⟩ := chunkLoop_spec fuel 0 parts h
  refine ⟨?_, ?_, ?_, ?_⟩
  · intro k hk
    rw [h1 k hk, List.length_take]
    exact min_le_left ..
  · intro k hk
    rw [h1 k hk]
    congr 2
    ring
  · intro k hk1 _hfull
    rw [h1 k (Nat.lt_of_succ_lt hk1), h1 (k + 1) hk1]
    rw [List.drop_take, List.drop_drop, List.take_take]
    have e1 : maxChars - (maxChars - overlap) = overlap := by omega
    have e2 : min overlap maxChars = overlap := by omega
    have e3 : 0 + k * (maxChars - overlap) + (maxChars - overlap)
        = 0 + (k + 1) * (maxChars - overlap) := by ring
    rw [e1, e2, e3]
  · intro k hk hshort
    have hlt := h2 k hk
    rw [h1 k hk, List.length_take, List.length_drop] at hshort ⊢
    omega

/-- C6, counterexample to the claim as stated: `chunk_text("abcd", 5, 2)`
returns `["abcd", "d"]` — the first fragment is shorter than `maxChars = 5`
yet is not the final fragment, and its last 2 characters `"cd"` are not the
first 2 characters of the next fragment `"d"`. -/
theorem chunk_text_overlap_claim_counterexample :
    chunk_text "abcd".data 5 2 5 = some ["abcd".data, ['d']] ∧
    ("abcd".data : List Char).length < 5 ∧
    (["abcd".data, ['d']] : List (List Char)).length = 2 ∧
    ("abcd".data).drop (("abcd".data).length - 2) ≠ (['d'] : List Char).take 2 :=
  ⟨by decide, by decide, by decide, by decide⟩

/-- Witness for C6 (amended) at `("abcde", maxChars 3, overlap 1)`. -/
theorem chunk_text_window_amended_witness :
    (0 : Nat) < 1 ∧ (1 : Nat) < 3 ∧
    chunk_text "abcde".data 3 1 10 = some [['a','b','c'], ['c','d','e'], ['e']] ∧
    (∀ k (hk : k < ([['a','b','c'], ['c','d','e'], ['e']] : List (List Char)).length),
        (([['a','b','c'], ['c','d','e'], ['e']] : List (List Char)).get ⟨k, hk⟩).length ≤ 3) :=
  ⟨by decide, by decide, by decide,
    (chunk_text_window_amended "abcde".data 3 1 10
      [['a','b','c'], ['c','d','e'], ['e']] (by decide) (by decide) (by decide)).1⟩

/-- C7: with `overlap ≥ maxChars` the chunker does not raise a
configuration error — it never terminates at all. The window start never
advances (`i += max_chars - overlap` adds a non-positive step), so for any
non-empty stripped text the loop guard holds forever: the fuelled model
exhausts every fuel budget. -/
theorem chunk_text_overlap_ge_max_diverges (text : List Char) (maxChars overlap : Nat)
    (hov : maxChars ≤ overlap) (hne : crStrip text ≠ []) :
    ∀ fuel : Nat, chunk_text text maxChars overlap fuel = none := by
  intro fuel
  unfold chunk_text
  exact chunkLoop_none_of_nonpos (by omega) (List.length_pos.mpr hne) fuel 0 le_rfl

/-- Witness for C7 at `("abc", maxChars 1000, overlap 1000)` with fuel 7. -/
theorem chunk_text_overlap_ge_max_diverges_witness :
    (1000 : Nat) ≤ 1000 ∧ crStrip "abc".data ≠ [] ∧
    chunk_text "abc".data 1000 1000 7 = none :=
  ⟨by decide, by decide,
    chunk_text_overlap_ge_max_diverges "abc".data 1000 1000 (by decide) (by decide) 7⟩

/-! ## Lemmas about the query endpoint -/

/-- A prefix of `a` is a prefix of `a ++ b`. -/
lemma startsW_append {p a : List Char} (b : List Char) (h : startsW a p = true) :
    startsW (a ++ b) p = true := by
  induction p generalizing a with
  | nil => simp [startsW]
  | cons q qs ih =>
    cases a with
    | nil => simp [startsW] at h
    | cons c cs =>
      simp only [startsW, Bool.and_eq_true] at h
      simp only [List.cons_append, startsW, Bool.and_eq_true]
      exact ⟨h.1, ih h.2⟩

/-- `GenResult.failure` recognizer. -/
def GenResult.isFailure : GenResult → Bool
  | .failure _ => true
  | .success _ => false

/-- A successful generation whose stripped text does not begin with the
endpoint's in-band `"ERROR:"` marker. -/
def GenResult.isCleanSuccess : GenResult → Bool
  | .success t => !(ansIsError (pyStrip t))
  | .failure _ => false

/-- Both arms of `safe_generate`'s exception handler produce a string
beginning with `"ERROR:"`. -/
lemma ansIsError_safe_generate_failure (e : String) :
    ansIsError (safe_generate (.failure e)) = true := by
  simp only [safe_generate]
  by_cases hc : (hasSeg e.data "RESOURCE_EXHAUSTED".data
      || hasSeg (lowerL e.data) "quota".data) = true
  · rw [if_pos hc]
    decide
  · rw [if_neg hc]
    unfold ansIsError
    rw [show ("ERROR: " ++ e).data = "ERROR: ".data ++ e.data from String.data_append ..]
    exact startsW_append e.data (by decide)

/-- A failed generation always trips the endpoint's error marker test. -/
lemma ansIsError_of_isFailure {r : GenResult} (h : r.isFailure = true) :
    ansIsError (safe_generate r) = true := by
  cases r with
  | success t => simp [GenResult.isFailure] at h
  | failure e => exact ansIsError_safe_generate_failure e

/-- A clean successful generation never trips the error marker test. -/
lemma ansIsError_of_isCleanSuccess {r : GenResult} (h : r.isCleanSuccess = true) :
    ansIsError (safe_generate r) = false := by
  cases r with
  | success t =>
    simp only [GenResult.isCleanSuccess, Bool.not_eq_true'] at h
    simpa [safe_generate] using h
  | failure e => simp [GenResult.isCleanSuccess] at h

/-- The joined context string is at least as long as its first element. -/
lemma joinSep_length_ge (sep x : String) (xs : List String) :
    x.length ≤ (joinSep sep (x :: xs)).length := by
  cases xs with
  | nil => simp [joinSep]
  | cons y rest =>
    simp only [joinSep, String.length_append]
    omega

/-- When the query regex matches and some title matches the section regex,
`direct_section_lookup` returns the joined `title - content` context. -/
lemma direct_section_lookup_eq_some {df : List Frag} {q : String} {sec : List Char}
    (hm : matchKeyNum (lowerL q.data) = some sec)
    (hh : df.filter (fun fr => titleHasSec sec fr.title.data) ≠ []) :
    direct_section_lookup df q =
      some (joinSep "\n\n" ((df.filter (fun fr => titleHasSec sec fr.title.data)).map
        (fun fr => fr.title ++ " - " ++ fr.content))) := by
  unfold direct_section_lookup
  rw [hm]
  simp only [List.isEmpty_iff]
  rw [if_neg hh]

/-- The context built from a non-empty hit list is a non-empty string:
its first element contains at least the three characters `" - "`. -/
lemma lookup_context_ne_empty {hits : List Frag} (hh : hits ≠ []) :
    joinSep "\n\n" (hits.map (fun fr => fr.title ++ " - " ++ fr.content)) ≠ "" := by
  cases hits with
  | nil => exact absurd rfl hh
  | cons fr rest =>
    intro hcontra
    have h1 : (fr.title ++ " - " ++ fr.content).length ≤
        (joinSep "\n\n" ((fr :: rest).map (fun fr => fr.title ++ " - " ++ fr.content))).length := by
      simpa using joinSep_length_ge "\n\n" (fr.title ++ " - " ++ fr.content)
        (rest.map (fun fr => fr.title ++ " - " ++ fr.content))
    rw [hcontra] at h1
    simp only [String.length_append] at h1
    have h2 : (" - " : String).length = 3 := rfl
    have h3 : ("" : String).length = 0 := rfl
    omega

/-- With the auth check passed and no structural match, the endpoint is the
vector-search tier. -/
lemma query_endpoint_no_direct {env : Env} {apiSecret : String} {headerKey : Option String}
    {question : String} (hauth : apiSecret = "" ∨ headerKey = some apiSecret)
    (hdirect : direct_section_lookup env.df (pyStrip question) = none) :
    query_endpoint env apiSecret headerKey question = searchPath env (pyStrip question) := by
  unfold query_endpoint
  have hauth' : ¬ (apiSecret ≠ "" ∧ headerKey ≠ some apiSecret) := by tauto
  rw [if_neg hauth']
  simp only [hdirect]

/-- With the auth check passed and a non-empty structural-lookup context,
the endpoint is the direct KB generation on that context. -/
lemma query_endpoint_direct {env : Env} {apiSecret : String} {headerKey : Option String}
    {question : String} {ctx : String} (hauth : apiSecret = "" ∨ headerKey = some apiSecret)
    (hctx : direct_section_lookup env.df (pyStrip question) = some ctx) (hne : ctx ≠ "") :
    query_endpoint env apiSecret headerKey question = kbDirect env (pyStrip question) ctx := by
  unfold query_endpoint
  have hauth' : ¬ (apiSecret ≠ "" ∧ headerKey ≠ some apiSecret) := by tauto
  rw [if_neg hauth']
  simp only [hctx]
  rw [if_neg hne]

/-- C1: with no structural-lookup match, the endpoint runs the vector
search with topK = 5 and branches on the top result's score: strictly below
0.40 it routes to the no-context web generation (returning the answer with
source "web" when that generation succeeds); at 0.40 or above it instead
runs the generation grounded in the joined top-5 (title, content) context
(the `kbContextStep`). -/
theorem threshold_routing (env : Env) (apiSecret : String) (headerKey : Option String)
    (question bt bc : String) (bs : ℚ) (rest : List (String × String × ℚ))
    (hauth : apiSecret = "" ∨ headerKey = some apiSecret)
    (hdirect : direct_section_lookup env.df (pyStrip question) = none)
    (hsearch : env.search (pyStrip question) 5 = (bt, bc, bs) :: rest) :
    (bs < mkRat 2 5 →
      query_endpoint env apiSecret headerKey question = webFallback env (pyStrip question) ∧
      (ansIsError (safe_generate (env.gen (build_web_prompt (pyStrip question)) (mkRat 3 10))) = false →
        query_endpoint env apiSecret headerKey question =
          .ok (safe_generate (env.gen (build_web_prompt (pyStrip question)) (mkRat 3 10))) "web")) ∧
    (mkRat 2 5 ≤ bs →
      query_endpoint env apiSecret headerKey question =
        kbContextStep env (pyStrip question) ((bt, bc, bs) :: rest)) := by
  have hq := query_endpoint_no_direct hauth hdirect
  have hsp : searchPath env (pyStrip question) =
      if bs < mkRat 2 5 then webFallback env (pyStrip question)
      else kbContextStep env (pyStrip question) ((bt, bc, bs) :: rest) := by
    unfold searchPath
    rw [hsearch]
  rw [hq, hsp]
  constructor
  · intro hlt
    rw [if_pos hlt]
    refine ⟨rfl, fun hok => ?_⟩
    simp only [webFallback]
    rw [hok]
    simp
  · intro hge
    rw [if_neg (not_lt.mpr hge)]

/-- Witness for C1: a top score of 1/5 (below 0.40) routes to the web generation
and returns its successful answer with source "web". -/
theorem threshold_routing_witness :
    query_endpoint
      (Env.mk [] (fun _ _ => [("T", "C", mkRat 1 5)])
        (fun _ _ => .success "This is some web legal answer."))
      "" none "hello" =
      .ok "This is some web legal answer." "web" := by
  have h := (threshold_routing
    (Env.mk [] (fun _ _ => [("T", "C", mkRat 1 5)])
      (fun _ _ => .success "This is some web legal answer."))
    "" none "hello" "T" "C" (mkRat 1 5) [] (Or.inl rfl) (by decide) rfl).1
    (by decide) |>.2 (by decide)
  exact h.trans (by decide)

/-- C2: when the query regex finds a keyword-plus-number and some title
matches the section regex, the endpoint resolves via the structural lookup:
it generates from the joined `title - content` context of the matching rows
at temperature 0.1, never consults the vector search (the result is
invariant under replacing the search function), and returns the answer with
source "kb" when the generation succeeds. -/
theorem structural_lookup_routing (env : Env) (apiSecret : String)
    (headerKey : Option String) (question : String) (sec : List Char)
    (hauth : apiSecret = "" ∨ headerKey = some apiSecret)
    (hm : matchKeyNum (lowerL (pyStrip question).data) = some sec)
    (hh : env.df.filter (fun fr => titleHasSec sec fr.title.data) ≠ []) :
    query_endpoint env apiSecret headerKey question =
      kbDirect env (pyStrip question)
        (joinSep "\n\n" ((env.df.filter (fun fr => titleHasSec sec fr.title.data)).map
          (fun fr => fr.title ++ " - " ++ fr.content))) ∧
    (∀ s', query_endpoint (Env.mk env.df s' env.gen) apiSecret headerKey question =
        query_endpoint env apiSecret headerKey question) ∧
    (ansIsError (safe_generate (env.gen (build_kb_prompt
        (joinSep "\n\n" ((env.df.filter (fun fr => titleHasSec sec fr.title.data)).map
          (fun fr => fr.title ++ " - " ++ fr.content))) (pyStrip question)) (mkRat 1 10))) = false →
      query_endpoint env apiSecret headerKey question =
        .ok (safe_generate (env.gen (build_kb_prompt
          (joinSep "\n\n" ((env.df.filter (fun fr => titleHasSec sec fr.title.data)).map
            (fun fr => fr.title ++ " - " ++ fr.content))) (pyStrip question)) (mkRat 1 10))) "kb") := by
  have hctx := direct_section_lookup_eq_some hm hh
  have hne := lookup_context_ne_empty hh
  have h1 := query_endpoint_direct hauth hctx hne
  refine ⟨h1, ?_, ?_⟩
  · intro s'
    have hctx' : direct_section_lookup (Env.mk env.df s' env.gen).df (pyStrip question) =
        some (joinSep "\n\n" ((env.df.filter (fun fr => titleHasSec sec fr.title.data)).map
          (fun fr => fr.title ++ " - " ++ fr.content))) := hctx
    have h2 := query_endpoint_direct hauth hctx' hne
    rw [h1, h2]
    rfl
  · intro hok
    rw [h1]
    simp only [kbDirect]
    rw [hok]
    simp

/-- Witness for C2: the end-to-end scenario — query "Section 302" against a
knowledge base holding "IPC Section 302: Murder" resolves through the
structural lookup with source "kb". -/
theorem structural_lookup_routing_witness :
    query_endpoint
      (Env.mk [Frag.mk "IPC Section 302: Murder" "Punishment for murder."]
        (fun _ _ => [])
        (fun _ _ => .success "Murder carries life imprisonment or death."))
      "" none "Section 302" =
      .ok "Murder carries life imprisonment or death." "kb" := by
  have h := (structural_lookup_routing
    (Env.mk [Frag.mk "IPC Section 302: Murder" "Punishment for murder."]
      (fun _ _ => [])
      (fun _ _ => .success "Murder carries life imprisonment or death."))
    "" none "Section 302" ("302".data) (Or.inl rfl) (by decide) (by decide)).2.2 (by decide)
  exact h.trans (by decide)

/-- C3: once the confidence gate is passed (top score at least 0.40) and
the KB-context generation succeeded, an answer containing the "Not found in
knowledge base" sentinel or shorter than 5 words is discarded and the
endpoint re-routes to the no-context web generation, returning that second
answer with source "web"; otherwise the KB answer is returned with source
"kb". -/
theorem post_generation_check (env : Env) (apiSecret : String)
    (headerKey : Option String) (question bt bc : String) (bs : ℚ)
    (rest : List (String × String × ℚ))
    (hauth : apiSecret = "" ∨ headerKey = some apiSecret)
    (hdirect : direct_section_lookup env.df (pyStrip question) = none)
    (hsearch : env.search (pyStrip question) 5 = (bt, bc, bs) :: rest)
    (hgate : ¬ bs < mkRat 2 5)
    (hok : ansIsError (safe_generate (env.gen (build_kb_prompt
      (joinSep "\n\n" (((bt, bc, bs) :: rest).map (fun r => r.1 ++ " - " ++ r.2.1)))
      (pyStrip question)) (mkRat 3 20))) = false) :
    (postCheckTrips (safe_generate (env.gen (build_kb_prompt
        (joinSep "\n\n" (((bt, bc, bs) :: rest).map (fun r => r.1 ++ " - " ++ r.2.1)))
        (pyStrip question)) (mkRat 3 20))) = true →
      query_endpoint env apiSecret headerKey question = webFallback env (pyStrip question) ∧
      (ansIsError (safe_generate (env.gen (build_web_prompt (pyStrip question)) (mkRat 3 10))) = false →
        query_endpoint env apiSecret headerKey question =
          .ok (safe_generate (env.gen (build_web_prompt (pyStrip question)) (mkRat 3 10))) "web")) ∧
    (postCheckTrips (safe_generate (env.gen (build_kb_prompt
        (joinSep "\n\n" (((bt, bc, bs) :: rest).map (fun r => r.1 ++ " - " ++ r.2.1)))
        (pyStrip question)) (mkRat 3 20))) = false →
      query_endpoint env apiSecret headerKey question =
        .ok (safe_generate (env.gen (build_kb_prompt
          (joinSep "\n\n" (((bt, bc, bs) :: rest).map (fun r => r.1 ++ " - " ++ r.2.1)))
          (pyStrip question)) (mkRat 3 20))) "kb") := by
  have hq := query_endpoint_no_direct hauth hdirect
  have hsp : searchPath env (pyStrip question) =
      if bs < mkRat 2 5 then webFallback env (pyStrip question)
      else kbContextStep env (pyStrip question) ((bt, bc, bs) :: rest) := by
    unfold searchPath
    rw [hsearch]
  rw [hq, hsp, if_neg hgate]
  simp only [kbContextStep]
  rw [hok]
  simp only [Bool.false_eq_true, if_false]
  constructor
  · intro htrip
    rw [if_pos htrip]
    refine ⟨rfl, fun hokw => ?_⟩
    simp only [webFallback]
    rw [hokw]
    simp
  · intro htrip
    rw [htrip]
    simp

set_option maxRecDepth 40000 in
/-- Witness for C3, the end-to-end sentinel scenario: the KB generation
(temperature 0.15) returns exactly "Not found in knowledge base.", which is
discarded, and the web generation's answer is returned with source "web". -/
theorem post_generation_check_witness :
    query_endpoint
      (Env.mk [] (fun _ _ => [("T", "C", mkRat 1 2)])
        (fun p _ => if hasSegS p "knowledge base" then .success "Not found in knowledge base."
          else .success "Here is a long enough web answer."))
      "" none "hello" =
      .ok "Here is a long enough web answer." "web" := by
  have h := (post_generation_check
    (Env.mk [] (fun _ _ => [("T", "C", mkRat 1 2)])
      (fun p _ => if hasSegS p "knowledge base" then .success "Not found in knowledge base."
        else .success "Here is a long enough web answer."))
    "" none "hello" "T" "C" (mkRat 1 2) [] (Or.inl rfl) (by decide) rfl
    (by decide) (by decide)).1 (by decide)
  exact (h.2 (by decide)).trans (by decide)

/-- With the auth check passed and an empty structural-lookup context,
Python truthiness (`if direct_ctx:`) falls through to the vector search. -/
lemma query_endpoint_direct_empty {env : Env} {apiSecret : String}
    {headerKey : Option String} {question : String} {ctx : String}
    (hauth : apiSecret = "" ∨ headerKey = some apiSecret)
    (hctx : direct_section_lookup env.df (pyStrip question) = some ctx) (he : ctx = "") :
    query_endpoint env apiSecret headerKey question = searchPath env (pyStrip question) := by
  unfold query_endpoint
  have hauth' : ¬ (apiSecret ≠ "" ∧ headerKey ≠ some apiSecret) := by tauto
  rw [if_neg hauth']
  simp only [hctx]
  rw [if_pos he]

/-- A failed web generation surfaces as the 503 typed error. -/
lemma webFallback_is503 {env : Env} {q : String}
    (h : (env.gen (build_web_prompt q) (mkRat 3 10)).isFailure = true) :
    (webFallback env q).is503 = true := by
  simp only [webFallback]
  rw [ansIsError_of_isFailure h]
  simp [ApiResult.is503]

/-- A clean successful web generation is returned as a normal answer. -/
lemma webFallback_isOk {env : Env} {q : String}
    (h : (env.gen (build_web_prompt q) (mkRat 3 10)).isCleanSuccess = true) :
    (webFallback env q).isOk = true := by
  simp only [webFallback]
  rw [ansIsError_of_isCleanSuccess h]
  simp [ApiResult.isOk]

/-- A failed direct-KB generation surfaces as the 503 typed error. -/
lemma kbDirect_is503 {env : Env} {q ctx : String}
    (h : (env.gen (build_kb_prompt ctx q) (mkRat 1 10)).isFailure = true) :
    (kbDirect env q ctx).is503 = true := by
  simp only [kbDirect]
  rw [ansIsError_of_isFailure h]
  simp [ApiResult.is503]

/-- A clean successful direct-KB generation is returned as a normal answer. -/
lemma kbDirect_isOk {env : Env} {q ctx : String}
    (h : (env.gen (build_kb_prompt ctx q) (mkRat 1 10)).isCleanSuccess = true) :
    (kbDirect env q ctx).isOk = true := by
  simp only [kbDirect]
  rw [ansIsError_of_isCleanSuccess h]
  simp [ApiResult.isOk]

/-- A failed KB-context generation surfaces as the 503 typed error. -/
lemma kbContextStep_is503 {env : Env} {q : String}
    {results : List (String × String × ℚ)}
    (h : ∀ p t, (env.gen p t).isFailure = true) :
    (kbContextStep env q results).is503 = true := by
  simp only [kbContextStep]
  rw [ansIsError_of_isFailure (h _ _)]
  simp [ApiResult.is503]

/-- With every generation a clean success, the KB-context step returns a
normal answer on both its branches (the KB answer, or the web fallback the
post-check re-routes to). -/
lemma kbContextStep_isOk {env : Env} {q : String}
    {results : List (String × String × ℚ)}
    (h : ∀ p t, (env.gen p t).isCleanSuccess = true) :
    (kbContextStep env q results).isOk = true := by
  simp only [kbContextStep]
  rw [ansIsError_of_isCleanSuccess (h _ _)]
  simp only [Bool.false_eq_true, if_false]
  by_cases hpc : postCheckTrips (safe_generate (env.gen (build_kb_prompt
      (joinSep "\n\n" (results.map (fun r => r.1 ++ " - " ++ r.2.1))) q) (mkRat 3 20))) = true
  · rw [if_pos hpc]
    exact webFallback_isOk (h _ _)
  · rw [if_neg hpc]
    simp [ApiResult.isOk]

/-- A failing generator turns the whole vector-search tier into a 503. -/
lemma searchPath_is503 {env : Env} {q : String} (hnz : env.search q 5 ≠ [])
    (hfail : ∀ p t, (env.gen p t).isFailure = true) :
    (searchPath env q).is503 = true := by
  unfold searchPath
  cases hs : env.search q 5 with
  | nil => exact absurd hs hnz
  | cons best rest =>
    show (if best.2.2 < mkRat 2 5 then webFallback env q
      else kbContextStep env q (best :: rest)).is503 = true
    by_cases hlt : best.2.2 < mkRat 2 5
    · rw [if_pos hlt]
      exact webFallback_is503 (hfail _ _)
    · rw [if_neg hlt]
      exact kbContextStep_is503 hfail

/-- A cleanly succeeding generator turns the whole vector-search tier into
a normal answer. -/
lemma searchPath_isOk {env : Env} {q : String} (hnz : env.search q 5 ≠ [])
    (hsucc : ∀ p t, (env.gen p t).isCleanSuccess = true) :
    (searchPath env q).isOk = true := by
  unfold searchPath
  cases hs : env.search q 5 with
  | nil => exact absurd hs hnz
  | cons best rest =>
    show (if best.2.2 < mkRat 2 5 then webFallback env q
      else kbContextStep env q (best :: rest)).isOk = true
    by_cases hlt : best.2.2 < mkRat 2 5
    · rw [if_pos hlt]
      exact webFallback_isOk (hsucc _ _)
    · rw [if_neg hlt]
      exact kbContextStep_isOk hsucc

/-- C5 (amended): on every resolution path, a generation-provider failure
is surfaced as the 503 typed error, never as a normal `{answer, source}`
result; and a successful generation is returned as a normal result provided
its stripped text does not itself begin with the in-band `"ERROR:"` marker
(a successful generation beginning with `"ERROR:"` is misreported as a
503 — see the counterexample). -/
theorem generation_failures_surfaced (env : Env) (apiSecret : String)
    (headerKey : Option String) (question : String)
    (hauth : apiSecret = "" ∨ headerKey = some apiSecret)
    (hnz : env.search (pyStrip question) 5 ≠ []) :
    ((∀ p t, (env.gen p t).isFailure = true) →
      (query_endpoint env apiSecret headerKey question).is503 = true) ∧
    ((∀ p t, (env.gen p t).isCleanSuccess = true) →
      (query_endpoint env apiSecret headerKey question).isOk = true) := by
  constructor
  · intro hfail
    cases hd : direct_section_lookup env.df (pyStrip question) with
    | none =>
      rw [query_endpoint_no_direct hauth hd]
      exact searchPath_is503 hnz hfail
    | some ctx =>
      by_cases hce : ctx = ""
      · rw [query_endpoint_direct_empty hauth hd hce]
        exact searchPath_is503 hnz hfail
      · rw [query_endpoint_direct hauth hd hce]
        exact kbDirect_is503 (hfail _ _)
  · intro hsucc
    cases hd : direct_section_lookup env.df (pyStrip question) with
    | none =>
      rw [query_endpoint_no_direct hauth hd]
      exact searchPath_isOk hnz hsucc
    | some ctx =>
      by_cases hce : ctx = ""
      · rw [query_endpoint_direct_empty hauth hd hce]
        exact searchPath_isOk hnz hsucc
      · rw [query_endpoint_direct hauth hd hce]
        exact kbDirect_isOk (hsucc _ _)

/-- C5, counterexample to the claim as stated: the generation provider
succeeds with the text "ERROR: a deliberate in-band answer", yet the
endpoint misclassifies this successful generation as a 503 error, because
errors are signalled in-band by a string prefix. -/
theorem success_reported_as_error :
    (Env.mk [] (fun _ _ => [("T", "C", 0)])
        (fun _ _ => .success "ERROR: a deliberate in-band answer")).gen
      (build_web_prompt (pyStrip "hello")) (mkRat 3 10) =
      .success "ERROR: a deliberate in-band answer" ∧
    query_endpoint
      (Env.mk [] (fun _ _ => [("T", "C", 0)])
        (fun _ _ => .success "ERROR: a deliberate in-band answer"))
      "" none "hello" =
      .httpError 503 "ERROR: a deliberate in-band answer" :=
  ⟨rfl, by decide⟩

/-- Witness for C5 (amended): an always-failing generator yields a 503; an
always-cleanly-succeeding generator yields a normal answer. -/
theorem generation_failures_surfaced_witness :
    (query_endpoint
      (Env.mk [] (fun _ _ => [("T", "C", mkRat 1 2)]) (fun _ _ => .failure "boom"))
      "" none "hi").is503 = true ∧
    (query_endpoint
      (Env.mk [] (fun _ _ => [("T", "C", mkRat 1 2)])
        (fun _ _ => .success "a perfectly ordinary legal answer"))
      "" none "hi").isOk = true :=
  ⟨(generation_failures_surfaced
      (Env.mk [] (fun _ _ => [("T", "C", mkRat 1 2)]) (fun _ _ => .failure "boom"))
      "" none "hi" (Or.inl rfl) (by decide)).1 (fun _ _ => rfl),
   (generation_failures_surfaced
      (Env.mk [] (fun _ _ => [("T", "C", mkRat 1 2)])
        (fun _ _ => .success "a perfectly ordinary legal answer"))
      "" none "hi" (Or.inl rfl) (by decide)).2 (fun _ _ => rfl)⟩

/-! ## Theorems about the index builder -/

/-- C4: when the primary model's embedding run fails (some batch exhausted
its retries), the builder re-runs the entire text set against the fallback
model, exactly once: if that run also fails, `main` terminates with the
fallback's error and writes neither artifact; if it succeeds, its
embeddings are published. There is no third tier. -/
theorem embedding_fallback_tier (resp : HfOracle) (documents : List (String × String))
    (e1 : String)
    (hne : (collectGo 0 documents).map (fun r => r.text) ≠ [])
    (hp : batch_embed resp ((collectGo 0 documents).map (fun r => r.text))
      USER_MODEL 8 4 = .error e1) :
    (∀ e2, batch_embed resp ((collectGo 0 documents).map (fun r => r.text))
        FALLBACK_MODEL 8 4 = .error e2 →
      mainHF resp documents = .error e2) ∧
    (∀ embs, batch_embed resp ((collectGo 0 documents).map (fun r => r.text))
        FALLBACK_MODEL 8 4 = .ok embs →
      mainHF resp documents = .ok (some ⟨collectGo 0 documents, embs⟩)) := by
  have hlen : ¬ ((collectGo 0 documents).map (fun r => r.text)).length = 0 :=
    fun hz => hne (List.length_eq_zero.mp hz)
  constructor
  · intro e2 h2
    simp only [mainHF]
    rw [if_neg hlen]
    simp only [hp, h2]
  · intro embs h2
    simp only [mainHF]
    rw [if_neg hlen]
    simp only [hp, h2]

/-- Witness for C4: an always-failing HTTP oracle fails the primary run and
then the fallback run, and the build terminates with the fallback's error. -/
theorem embedding_fallback_tier_witness :
    (collectGo 0 [("a.txt", "hello")]).map (fun r => r.text) ≠ [] ∧
    mainHF (fun _ _ _ => none) [("a.txt", "hello")] =
      .error "Embedding batch 0 failed after 4 retries" :=
  ⟨by decide,
   (embedding_fallback_tier (fun _ _ _ => none) [("a.txt", "hello")]
      "Embedding batch 0 failed after 4 retries" (by decide) rfl).1
      "Embedding batch 0 failed after 4 retries" rfl⟩

/-- C8, counterexample to the claim as stated: with no documents (or only
blank documents) the builder returns normally — `.ok none`, an early exit
with nothing written — rather than failing fatally. -/
theorem zero_fragments_counterexample :
    mainHF (fun _ _ _ => none) [] = .ok none ∧
    mainHF (fun _ _ _ => none) [("empty.txt", "   ")] = .ok none :=
  ⟨rfl, rfl⟩

/-- C8 (amended): when zero fragments are produced, the builder prints an
informational message and returns normally without writing either artifact
— an early normal exit, not a fatal failure. -/
theorem zero_fragments_early_exit (resp : HfOracle) (documents : List (String × String))
    (hz : (collectGo 0 documents).map (fun r => r.text) = []) :
    mainHF resp documents = .ok none := by
  simp only [mainHF, hz]
  rfl

/-- Witness for C8 (amended) on a whitespace-only document. -/
theorem zero_fragments_early_exit_witness :
    (collectGo 0 [("empty.txt", "  ")]).map (fun r => r.text) = [] ∧
    mainHF (fun _ _ _ => some []) [("empty.txt", "  ")] = .ok none :=
  ⟨by decide,
   zero_fragments_early_exit (fun _ _ _ => some []) [("empty.txt", "  ")] (by decide)⟩

/-! ## Theorems about the basic search's ordering -/

/-- The strict order in which Python's `sort(reverse=True)` arranges the
`(score, doc_id)` tuples: higher score first, and among equal scores the
higher id first. -/
def resOrder (a b : ℚ × Nat) : Prop := b.1 < a.1 ∨ (a.1 = b.1 ∧ b.2 < a.2)

/-- The boolean comparator agrees with `resOrder`. -/
lemma tupBefore_iff {a b : ℚ × Nat} : tupBefore a b = true ↔ resOrder a b := by
  unfold tupBefore resOrder
  exact decide_eq_true_iff

/-- `resOrder` is transitive. -/
lemma resOrder_trans {a b c : ℚ × Nat} (h1 : resOrder a b) (h2 : resOrder b c) :
    resOrder a c := by
  rcases h1 with h1 | ⟨e1, l1⟩ <;> rcases h2 with h2 | ⟨e2, l2⟩
  · exact Or.inl (lt_trans h2 h1)
  · exact Or.inl (e2 ▸ h1)
  · exact Or.inl (e1.symm ▸ h2)
  · exact Or.inr ⟨e1.trans e2, lt_trans l2 l1⟩

/-- Tuples with distinct ids are always comparable. -/
lemma resOrder_total_of_ne {a b : ℚ × Nat} (h : a.2 ≠ b.2) :
    resOrder a b ∨ resOrder b a := by
  rcases lt_trichotomy a.1 b.1 with h1 | h1 | h1
  · exact Or.inr (Or.inl h1)
  · rcases Nat.lt_or_ge a.2 b.2 with h2 | h2
    · exact Or.inr (Or.inr ⟨h1.symm, h2⟩)
    · exact Or.inl (Or.inr ⟨h1, Nat.lt_of_le_of_ne h2 (fun e => h e.symm)⟩)
  · exact Or.inl (Or.inl h1)

/-- Membership through insertion. -/
lemma mem_insertDesc {x y : ℚ × Nat} : ∀ {l}, y ∈ insertDesc x l ↔ y = x ∨ y ∈ l := by
  intro l
  induction l with
  | nil => simp [insertDesc]
  | cons z zs ih =>
    simp only [insertDesc]
    by_cases hb : tupBefore x z = true
    · rw [if_pos hb]
      simp only [List.mem_cons]
    · rw [if_neg hb]
      simp only [List.mem_cons, ih]
      tauto

/-- Insertion adds one element. -/
lemma length_insertDesc (x : ℚ × Nat) : ∀ l, (insertDesc x l).length = l.length + 1 := by
  intro l
  induction l with
  | nil => rfl
  | cons z zs ih =>
    simp only [insertDesc]
    by_cases hb : tupBefore x z = true
    · rw [if_pos hb]
      rfl
    · rw [if_neg hb]
      simp [ih]

/-- Inserting an element comparable with everything preserves sortedness. -/
lemma pairwise_insertDesc {x : ℚ × Nat} : ∀ {l}, List.Pairwise resOrder l →
    (∀ y ∈ l, resOrder x y ∨ resOrder y x) →
    List.Pairwise resOrder (insertDesc x l) := by
  intro l
  induction l with
  | nil =>
    intro _ _
    simp [insertDesc]
  | cons z zs ih =>
    intro hl htot
    rcases List.pairwise_cons.mp hl with ⟨hz, hzs⟩
    simp only [insertDesc]
    by_cases hb : tupBefore x z = true
    · rw [if_pos hb]
      have hxz : resOrder x z := tupBefore_iff.mp hb
      refine List.pairwise_cons.mpr ⟨?_, hl⟩
      intro y hy
      rcases List.mem_cons.mp hy with rfl | hy'
      · exact hxz
      · exact resOrder_trans hxz (hz y hy')
    · rw [if_neg hb]
      have hzx : resOrder z x := by
        rcases htot z (List.mem_cons_self ..) with h | h
        · exact absurd (tupBefore_iff.mpr h) hb
        · exact h
      refine List.pairwise_cons.mpr
        ⟨?_, ih hzs (fun y hy => htot y (List.mem_cons_of_mem _ hy))⟩
      intro y hy
      rcases mem_insertDesc.mp hy with rfl | hy'
      · exact hzx
      · exact hz y hy'

/-- The sort permutes: same members. -/
lemma mem_pySortDesc {y : ℚ × Nat} : ∀ {l}, y ∈ pySortDesc l ↔ y ∈ l := by
  intro l
  induction l with
  | nil => simp [pySortDesc]
  | cons x xs ih =>
    simp only [pySortDesc, mem_insertDesc, ih, List.mem_cons]

/-- The sort preserves length. -/
lemma length_pySortDesc : ∀ l, (pySortDesc l).length = l.length := by
  intro l
  induction l with
  | nil => rfl
  | cons x xs ih =>
    simp only [pySortDesc, length_insertDesc, ih, List.length_cons]

/-- With pairwise-distinct ids, the sorted list is strictly descending in
the tuple order. -/
lemma pairwise_pySortDesc : ∀ {l}, List.Pairwise (fun a b => a.2 ≠ b.2) l →
    List.Pairwise resOrder (pySortDesc l) := by
  intro l
  induction l with
  | nil =>
    intro _
    simp [pySortDesc]
  | cons x xs ih =>
    intro hp
    rcases List.pairwise_cons.mp hp with ⟨hx, hxs⟩
    simp only [pySortDesc]
    exact pairwise_insertDesc (ih hxs)
      (fun y hy => resOrder_total_of_ne (hx y (mem_pySortDesc.mp hy)))

/-- The score tuples carry pairwise-distinct ids (the enumeration index). -/
lemma pairwise_ids_scores (q : String) (docstore : List Doc) :
    List.Pairwise (fun a b : ℚ × Nat => a.2 ≠ b.2)
      (docstore.enum.map (fun p => (jaccard (wordSet q) (wordSet p.2.text), p.1))) := by
  rw [List.pairwise_map]
  refine List.pairwise_iff_get.mpr ?_
  intro i j hij
  rw [List.get_enum, List.get_enum]
  simp only
  omega

/-- C9, counterexample to the claim as stated: two documents with identical
text score the same Jaccard similarity, and the tied entries come back in
descending id order `[1, 0]`, not ascending. -/
theorem search_tie_break_counterexample :
    (search_basic_index "same"
        [Doc.mk "A" "same text" "s", Doc.mk "B" "same text" "s"] 3).map
      (fun r => (r.id, r.score)) = [(1, mkRat 1 2), (0, mkRat 1 2)] := by
  decide

/-- C9 (amended): `search_basic_index` returns `min topK n` entries, sorted
by score descending with ties broken by descending (not ascending) fragment
id — still a total, deterministic order since ids are distinct — and every
document that is not among the returned ids is dominated by every returned
entry under that same order. -/
theorem search_basic_index_sorted (query : String) (docstore : List Doc) (topk : Nat) :
    (search_basic_index query docstore topk).length = min topk docstore.length ∧
    List.Pairwise (fun a b : SearchRes =>
        b.score < a.score ∨ (a.score = b.score ∧ b.id < a.id))
      (search_basic_index query docstore topk) ∧
    (∀ j (hj : j < docstore.length),
      (∃ r ∈ search_basic_index query docstore topk, r.id = j) ∨
      (∀ r ∈ search_basic_index query docstore topk,
        jaccard (wordSet query) (wordSet (docstore.get ⟨j, hj⟩).text) < r.score ∨
        (r.score = jaccard (wordSet query) (wordSet (docstore.get ⟨j, hj⟩).text) ∧
          j < r.id))) := by
  have hsorted : List.Pairwise resOrder (pySortDesc (docstore.enum.map
      (fun p => (jaccard (wordSet query) (wordSet p.2.text), p.1)))) :=
    pairwise_pySortDesc (pairwise_ids_scores query docstore)
  refine ⟨?_, ?_, ?_⟩
  · simp [search_basic_index, List.length_take, length_pySortDesc, List.enum_length]
  · simp only [search_basic_index]
    apply List.pairwise_map.mpr
    exact (hsorted.sublist (List.take_sublist ..)).imp (fun h => h)
  · intro j hj
    simp only [search_basic_index]
    have hmem : (jaccard (wordSet query) (wordSet (docstore.get ⟨j, hj⟩).text), j) ∈
        docstore.enum.map (fun p => (jaccard (wordSet query) (wordSet p.2.text), p.1)) := by
      apply List.mem_iff_get.mpr
      refine ⟨⟨j, by simp [List.enum_length, hj]⟩, ?_⟩
      rw [List.get_map, List.get_enum]
      simp
    have hmem' := mem_pySortDesc.mpr hmem
    rw [← List.take_append_drop topk (pySortDesc (docstore.enum.map
      (fun p => (jaccard (wordSet query) (wordSet p.2.text), p.1))))] at hmem'
    rcases List.mem_append.mp hmem' with hin | hout
    · left
      exact ⟨_, List.mem_map_of_mem _ hin, rfl⟩
    · right
      intro r hr
      rcases List.mem_map.mp hr with ⟨a, ha, rfl⟩
      show resOrder a (jaccard (wordSet query) (wordSet (docstore.get ⟨j, hj⟩).text), j)
      have hsorted2 : List.Pairwise resOrder
          ((pySortDesc (docstore.enum.map
              (fun p => (jaccard (wordSet query) (wordSet p.2.text), p.1)))).take topk ++
            (pySortDesc (docstore.enum.map
              (fun p => (jaccard (wordSet query) (wordSet p.2.text), p.1)))).drop topk) := by
        rw [List.take_append_drop]
        exact hsorted
      exact (List.pairwise_append.mp hsorted2).2.2 a ha
        (jaccard (wordSet query) (wordSet (docstore.get ⟨j, hj⟩).text), j) hout

end CityZenGuard
